import Mathlib

/-!
Verification of the Regional Policy Composite Scoring Engine
(`final_policy_eval-3.py` and the `final_policy_eval_sigmoid_only.py` variant).

The Python pipeline is shallowly embedded: pure numeric computations become
Lean functions over `ℝ` (budgets, intensities) and `ℕ`/`ℚ` (counts, parsed
budgets), the per-region driver becomes a function over lists of region
records, and the pandas column operations become list transformations.
-/

open Real

namespace YouthPolicyEval

/-! ## Administrative Intensity Calculator
Embedding of `calculate_administrative_intensity` (final_policy_eval-3.py,
lines 252-291).  The function body after the data lookups is modelled: the
five looked-up quantities are the inputs.  Populations are integers in the
source (`get_youth_population` / `get_total_population` return `int`). -/

structure AdminInputs where
  youth_policy_budget : ℝ
  total_budget : ℝ
  youth_population : ℕ
  total_population : ℕ
  finance_autonomy : ℝ

structure AdminResult where
  administrative_intensity : ℝ
  concentration_index : ℝ
  budget_per_youth : ℝ
  budget_per_capita : ℝ

/-- Embeds the body of `calculate_administrative_intensity`:
    `budget_per_youth = youth_policy_budget / youth_population if youth_population > 0 else 0`,
    `budget_per_capita = total_budget / total_population if total_population > 0 else 0`,
    `concentration_index = budget_per_youth / budget_per_capita if budget_per_capita > 0 else 0`,
    then `math.log(concentration_index / finance_autonomy + 1)` when
    `finance_autonomy > 0`, else `math.log(concentration_index + 1)`. -/
noncomputable def calculate_administrative_intensity (a : AdminInputs) : AdminResult :=
  let budget_per_youth : ℝ :=
    if 0 < a.youth_population then a.youth_policy_budget / (a.youth_population : ℝ) else 0
  let budget_per_capita : ℝ :=
    if 0 < a.total_population then a.total_budget / (a.total_population : ℝ) else 0
  let concentration_index : ℝ :=
    if 0 < budget_per_capita then budget_per_youth / budget_per_capita else 0
  let administrative_intensity : ℝ :=
    if 0 < a.finance_autonomy then Real.log (concentration_index / a.finance_autonomy + 1)
    else Real.log (concentration_index + 1)
  ⟨administrative_intensity, concentration_index, budget_per_youth, budget_per_capita⟩

/-- The example scenario of the specification (§8). -/
def exampleAdminInputs : AdminInputs :=
  { youth_policy_budget := 1000000
    total_budget := 100000000
    youth_population := 10000
    total_population := 200000
    finance_autonomy := 0.3 }

/-! ## Youth-policy budget aggregation
Embedding of `calculate_youth_policy_budget` (final_policy_eval-3.py,
lines 192-250).  A JSON budget value is either a number or a string; any
other JSON value is passed through Python's `str` and then digit-filtered,
so it behaves like its string form. -/

inductive BudgetValue where
  | num (x : ℚ)
  | str (s : String)
deriving DecidableEq

/-- `float(''.join(filter(str.isdigit, s.replace('.', ''))))`: keep the digit
characters ('.' is not a digit, so the prior dot-removal is subsumed) and read
them as a decimal natural number; `float('')` raises, modelled as `none`. -/
def parseNumericString (s : String) : Option ℚ :=
  let ds := s.data.filter Char.isDigit
  if ds.isEmpty then none
  else some ((ds.foldl (fun n c => 10 * n + (c.toNat - 48)) 0 : ℕ) : ℚ)

/-- Parse a budget value as the Python code does: a number is used directly;
a string is digit-filtered and re-parsed, `none` on failure. -/
def parseBudgetValue : BudgetValue → Option ℚ
  | BudgetValue.num x => some x
  | BudgetValue.str s => parseNumericString s

/-- One entry of a category's `세부사업` list; `budget` is the optional
`예산` field. -/
structure Project where
  budget : Option BudgetValue
deriving DecidableEq

/-- One category of `정책수행`: the optional `세부사업` project list and the
optional `총예산` aggregate field. -/
structure CategoryData where
  projects : Option (List Project)
  total_budget_field : Option BudgetValue
deriving DecidableEq

/-- Stage-1 contribution of one project: a missing or unparsable `예산`
contributes 0 (the `except` branch does `continue`). -/
def projectBudget (p : Project) : ℚ :=
  match p.budget with
  | none => 0
  | some v => (parseBudgetValue v).getD 0

/-- Stage 1 of the category loop: sum the per-project budgets when the
`세부사업` list is present. -/
def stage1Budget (c : CategoryData) : ℚ :=
  match c.projects with
  | none => 0
  | some ps => (ps.map projectBudget).sum

/-- Stage 2: `if category_budget == 0 and "총예산" in category_data`, use the
parsed aggregate field (0 when parsing fails); otherwise keep the stage-1
sum. -/
def categoryBudget (c : CategoryData) : ℚ :=
  let s := stage1Budget c
  if s = 0 then
    match c.total_budget_field with
    | some v => (parseBudgetValue v).getD 0
    | none => s
  else s

/-- `calculate_youth_policy_budget`: total over all categories. -/
def calculate_youth_policy_budget (categories : List CategoryData) : ℚ :=
  (categories.map categoryBudget).sum

/-! ## Composite Normalizer
Embedding of `calculate_comprehensive_scores` (final_policy_eval-3.py,
lines 491-519, degenerate constant 0) and of the same-named function of
final_policy_eval_sigmoid_only.py (lines 625-645, degenerate constant 0.5). -/

/-- Input row: the raw intensities `행정적_강도` and `전략적_강도`. -/
structure IntensityRow where
  admin : ℝ
  strategic : ℝ

/-- Output row: raw intensities, their min-max normalizations, and the
50:50 composite score `종합점수`. -/
structure ScoredRow where
  admin : ℝ
  strategic : ℝ
  admin_norm : ℝ
  strategic_norm : ℝ
  composite : ℝ

/-- `Series.min` of a non-empty pandas column. -/
noncomputable def listMin : List ℝ → ℝ
  | [] => 0
  | x :: xs => xs.foldl min x

/-- `Series.max` of a non-empty pandas column. -/
noncomputable def listMax : List ℝ → ℝ
  | [] => 0
  | x :: xs => xs.foldl max x

/-- Min-max normalize one value against its column, falling back to the
`degenerate` constant when the column's max does not exceed its min. -/
noncomputable def normalizeValue (degenerate : ℝ) (column : List ℝ) (v : ℝ) : ℝ :=
  if listMin column < listMax column then
    (v - listMin column) / (listMax column - listMin column)
  else degenerate

/-- Columnwise min-max normalization of both intensities followed by the
50:50 composite, as the pandas code computes it. -/
noncomputable def calculate_comprehensive_scores (degenerate : ℝ)
    (rows : List IntensityRow) : List ScoredRow :=
  let adminCol := rows.map (·.admin)
  let stratCol := rows.map (·.strategic)
  rows.map fun r =>
    let an := normalizeValue degenerate adminCol r.admin
    let sn := normalizeValue degenerate stratCol r.strategic
    ⟨r.admin, r.strategic, an, sn, (an + sn) / 2⟩

/-- The evaluation-3 normalizer writes 0 into a degenerate column. -/
noncomputable def calculate_comprehensive_scores_eval3 : List IntensityRow → List ScoredRow :=
  calculate_comprehensive_scores 0

/-- The sigmoid-only variant writes 0.5 into a degenerate column. -/
noncomputable def calculate_comprehensive_scores_sigmoid_only :
    List IntensityRow → List ScoredRow :=
  calculate_comprehensive_scores 0.5

/-! ## Entropy component of the strategic intensity
Embedding of the entropy block of `calculate_strategic_intensity`
(final_policy_eval-3.py, lines 398-417).  A region's project counts over the
five fixed policy categories are a function `Fin 5 → ℕ`. -/

/-- `total_policies = sum(policy_counts.values())`. -/
def total_policies (counts : Fin 5 → ℕ) : ℕ := ∑ i, counts i

/-- The categories with a non-zero project count. -/
def activeSet (counts : Fin 5 → ℕ) : Finset (Fin 5) :=
  Finset.univ.filter fun i => 0 < counts i

/-- `active_categories = sum(1 for c in policy_counts.values() if c > 0)`. -/
def active_categories (counts : Fin 5 → ℕ) : ℕ := (activeSet counts).card

/-- The entropy accumulation: starts at 0; when the total is positive,
subtracts `(count/total) * log2(count/total)` for every non-zero count. -/
noncomputable def entropy (counts : Fin 5 → ℕ) : ℝ :=
  if 0 < total_policies counts then
    ∑ i ∈ activeSet counts,
      -(((counts i : ℝ) / (total_policies counts : ℝ)) *
        Real.logb 2 ((counts i : ℝ) / (total_policies counts : ℝ)))
  else 0

/-- `entropy_score`: 0 unless more than one category is active and
`max_entropy = log2(active_categories)` is positive, in which case it is
`entropy / max_entropy`. -/
noncomputable def entropy_score (counts : Fin 5 → ℕ) : ℝ :=
  if 1 < active_categories counts then
    if 0 < Real.logb 2 (active_categories counts : ℝ) then
      entropy counts / Real.logb 2 (active_categories counts : ℝ)
    else 0
  else 0

/-! ## Ranker, tier-rank merge, and Metro-Municipal Linker
Embedding of `add_rankings` (final_policy_eval-3.py, lines 521-561) and of the
linkage step of `save_results` (lines 600-647).  `sort_values(...,
ascending=False)` becomes a descending insertion sort; `range(1, len(df)+1)`
becomes `List.range' 1 n`. -/

/-- `지역유형`: metropolitan (`광역자치단체`) or municipal (`기초자치단체`). -/
inductive RegionType where
  | metro
  | basic
deriving DecidableEq

/-- A row entering `add_rankings`: region name, tier and composite score. -/
structure RankInputRow where
  name : String
  rtype : RegionType
  composite : ℝ

/-- Descending comparison on composite scores. -/
def byCompositeDesc (a b : RankInputRow) : Prop := b.composite ≤ a.composite

noncomputable instance : DecidableRel byCompositeDesc :=
  fun a b => inferInstanceAs (Decidable (b.composite ≤ a.composite))

instance : IsTotal RankInputRow byCompositeDesc :=
  ⟨fun a b => le_total b.composite a.composite⟩

instance : IsTrans RankInputRow byCompositeDesc :=
  ⟨fun _ _ _ h₁ h₂ => le_trans h₂ h₁⟩

/-- `df.sort_values("종합점수", ascending=False)` followed by
`df["전체순위"] = range(1, len(df) + 1)`. -/
noncomputable def add_overall_ranks (rows : List RankInputRow) :
    List (RankInputRow × ℕ) :=
  let sorted := rows.insertionSort byCompositeDesc
  sorted.zip (List.range' 1 sorted.length)

/-- Within-tier ranking: filter one tier, sort it descending by composite,
and number it from 1. -/
noncomputable def tier_ranking (rows : List RankInputRow) (t : RegionType) :
    List (RankInputRow × ℕ) :=
  let sub := rows.filter fun r => decide (r.rtype = t)
  let sorted := sub.insertionSort byCompositeDesc
  sorted.zip (List.range' 1 sorted.length)

/-- The merge-back loop `df.loc[df["지역명"] == row["지역명"], rank_col] =
row[rank_col]`: the final cell value is the rank of the last ranked row with
a matching region name, or the 0 the column was initialized with. -/
noncomputable def mergedTierRank (ranking : List (RankInputRow × ℕ))
    (name : String) : ℕ :=
  (((ranking.filter fun p => decide (p.1.name = name)).getLast?).map Prod.snd).getD 0

/-- `add_rankings`' tier-rank assignment: every output row receives the
metro-tier and basic-tier ranks looked up by its region name alone. -/
noncomputable def add_tier_ranks (rows : List RankInputRow) :
    List (RankInputRow × ℕ × ℕ) :=
  let metroRanking := tier_ranking rows RegionType.metro
  let basicRanking := tier_ranking rows RegionType.basic
  rows.map fun r =>
    (r, mergedTierRank metroRanking r.name, mergedTierRank basicRanking r.name)

/-- `basic_weight = 0.7`: weight of the municipality's own effort. -/
noncomputable def basic_weight : ℝ := 0.7

/-- `metro_weight = 0.3`: weight of the parent metropolitan support. -/
noncomputable def metro_weight : ℝ := 0.3

/-- `최종_연계점수 = 종합점수 * basic_weight + 광역_종합점수 * metro_weight`. -/
noncomputable def linked_score (basicComposite metroComposite : ℝ) : ℝ :=
  basicComposite * basic_weight + metroComposite * metro_weight

/-- A municipal row entering the linkage step: its own composite score and
its resolved parent-metro composite score. -/
structure BasicLinkRow where
  name : String
  composite : ℝ
  metro_composite : ℝ

/-- Descending comparison on linked scores. -/
def byLinkedDesc (a b : BasicLinkRow) : Prop :=
  linked_score b.composite b.metro_composite ≤ linked_score a.composite a.metro_composite

noncomputable instance : DecidableRel byLinkedDesc :=
  fun a b => inferInstanceAs (Decidable (_ ≤ _))

instance : IsTotal BasicLinkRow byLinkedDesc := ⟨fun a b => le_total _ _⟩

instance : IsTrans BasicLinkRow byLinkedDesc := ⟨fun _ _ _ h₁ h₂ => le_trans h₂ h₁⟩

/-- The final linkage: sort the municipal rows by linked score descending and
assign `최종순위 = index + 1`. -/
noncomputable def link_rank (rows : List BasicLinkRow) : List (BasicLinkRow × ℕ) :=
  let sorted := rows.insertionSort byLinkedDesc
  sorted.zip (List.range' 1 sorted.length)

/-! ## Evaluation driver
Embedding of `evaluate_all_regions` (final_policy_eval-3.py, lines 428-489),
parameterized by the two intensity calculators it invokes. -/

/-- The hard-coded dual-role set `{"제주특별자치도", "세종특별자치시"}`. -/
def special_dual_role_regions : List String := ["제주특별자치도", "세종특별자치시"]

/-- The `override_region_type` argument of `calculate_strategic_intensity`. -/
inductive PeerOverride where
  | metro
  | basic
deriving DecidableEq

/-- One evaluated output row: region name, tier tag, and the two calculator
results (of abstract result types `A` and `S`). -/
structure EvalRow (A S : Type) where
  name : String
  rtype : RegionType
  admin : A
  strat : S

/-- The loop body of `evaluate_all_regions` for one region: a dual-role
region computes its administrative intensity once and its strategic intensity
twice (metro override, then basic override), producing a Metropolitan-tagged
and a Municipal-tagged row; every other region produces one row with no
override. -/
def regionRows {A S : Type} (adminCalc : String → A)
    (strategicCalc : String → Option PeerOverride → S)
    (is_metropolitan_area : String → Bool) (name : String) : List (EvalRow A S) :=
  if name ∈ special_dual_role_regions then
    let admin_result := adminCalc name
    [⟨name, RegionType.metro, admin_result, strategicCalc name (some PeerOverride.metro)⟩,
     ⟨name, RegionType.basic, admin_result, strategicCalc name (some PeerOverride.basic)⟩]
  else
    [⟨name, if is_metropolitan_area name then RegionType.metro else RegionType.basic,
      adminCalc name, strategicCalc name none⟩]

/-- `evaluate_all_regions`: iterate the loop body over the region keys. -/
def evaluate_all_regions {A S : Type} (adminCalc : String → A)
    (strategicCalc : String → Option PeerOverride → S)
    (is_metropolitan_area : String → Bool) (regions : List String) :
    List (EvalRow A S) :=
  regions.flatMap (regionRows adminCalc strategicCalc is_metropolitan_area)

/-- A three-row run with the dual-role region Jeju appearing in both tiers
plus one ordinary municipality, used to exhibit the tier-rank merge. -/
noncomputable def exampleDualRows : List RankInputRow :=
  [⟨"제주특별자치도", RegionType.metro, 1⟩,
   ⟨"제주특별자치도", RegionType.basic, 1⟩,
   ⟨"부산기초", RegionType.basic, 2⟩]

/-! ## Strategic Intensity Calculator
Embedding of the scoring loop of `calculate_strategic_intensity`: the
z-score + sigmoid configuration of final_policy_eval-3.py (lines 293-426) and
the percentile + sigmoid configuration of final_policy_eval_sigmoid_only.py
(lines 441-549).  The per-run cache `_category_stats_df` is a list of rows
(region name, tier flag, per-category counts). -/

/-- One cached row of `_category_stats_df`. -/
structure CacheRow where
  region_name : String
  is_metro : Bool
  counts : Fin 5 → ℕ

/-- `SIGMOID_K = 5`. -/
noncomputable def SIGMOID_K : ℝ := 5

/-- `scaled_score = 1 / (1 + math.exp(-SIGMOID_K * (raw_score - 0.5)))`. -/
noncomputable def sigmoid_scaled (raw_score : ℝ) : ℝ :=
  1 / (1 + Real.exp (-SIGMOID_K * (raw_score - 0.5)))

/-- Percentile standing: `np.searchsorted(sorted_dist, v, side="right") /
len(sorted_dist)` — the fraction of peer values ≤ `v` — and 0 for an empty
distribution. -/
noncomputable def percentile_raw (distribution : List ℕ) (v : ℕ) : ℝ :=
  if 0 < distribution.length then
    ((distribution.filter fun x => decide (x ≤ v)).length : ℝ) /
      (distribution.length : ℝ)
  else 0

/-- `distribution.mean()`. -/
noncomputable def dist_mean (d : List ℕ) : ℝ :=
  (d.map fun x => (x : ℝ)).sum / (d.length : ℝ)

/-- `distribution.std()`: the pandas sample standard deviation (ddof = 1).
For a single-element distribution pandas yields NaN, whose comparison
`std > 0` is false in Python; here the division by `length - 1 = 0` yields 0,
so the `std > 0` test is false in the same situations. -/
noncomputable def dist_std (d : List ℕ) : ℝ :=
  Real.sqrt (((d.map fun x => ((x : ℝ) - dist_mean d) ^ 2).sum) / ((d.length : ℝ) - 1))

/-- The standard normal cumulative distribution function `stats.norm.cdf`. -/
noncomputable def normCdf (x : ℝ) : ℝ :=
  (∫ t in Set.Iio x, Real.exp (-t ^ 2 / 2)) / Real.sqrt (2 * Real.pi)

/-- Z-score standing: `norm.cdf((v - mean)/std)` when the sample standard
deviation is positive, 0.5 for a non-empty zero-variance (or singleton)
distribution, and the initial 0.0 for an empty one. -/
noncomputable def z_score_raw (d : List ℕ) (v : ℕ) : ℝ :=
  if 0 < dist_std d then normCdf (((v : ℝ) - dist_mean d) / dist_std d)
  else if 0 < d.length then 0.5 else 0

/-- The audit fields returned by `calculate_strategic_intensity`. -/
structure StrategicResult where
  category_scores : Fin 5 → ℝ
  category_counts : Fin 5 → ℕ
  category_total_score : ℝ
  entropy : ℝ
  entropy_score : ℝ
  strategic_intensity : ℝ

/-- The all-zero result returned when the region is missing from the cache
(the `IndexError` branch). -/
noncomputable def zeroStrategicResult : StrategicResult :=
  ⟨fun _ => 0, fun _ => 0, 0, 0, 0, 0⟩

/-- Resolution of the evaluation group: an explicit override wins, otherwise
the region's own tier membership. -/
def resolve_is_metro (is_metropolitan_area : String → Bool) (region_name : String) :
    Option PeerOverride → Bool
  | some PeerOverride.metro => true
  | some PeerOverride.basic => false
  | none => is_metropolitan_area region_name

/-- The common body of `calculate_strategic_intensity`, parameterized by the
standing method `raw` applied to (peer distribution, own count). -/
noncomputable def calculate_strategic_intensity_with
    (raw : List ℕ → ℕ → ℝ) (is_metropolitan_area : String → Bool)
    (cache : List CacheRow) (region_name : String)
    (override_region_type : Option PeerOverride) : StrategicResult :=
  match cache.find? fun row => decide (row.region_name = region_name) with
  | none => zeroStrategicResult
  | some current =>
      let is_metro := resolve_is_metro is_metropolitan_area region_name override_region_type
      let group := cache.filter fun row => row.is_metro == is_metro
      let score : Fin 5 → ℝ := fun i =>
        sigmoid_scaled (raw (group.map fun row => row.counts i) (current.counts i))
      let category_total_score := ∑ i, score i
      { category_scores := score
        category_counts := current.counts
        category_total_score := category_total_score
        entropy := entropy current.counts
        entropy_score := entropy_score current.counts
        strategic_intensity := category_total_score + entropy_score current.counts }

/-- The z-score + sigmoid configuration of final_policy_eval-3.py. -/
noncomputable def calculate_strategic_intensity_zscore :=
  calculate_strategic_intensity_with z_score_raw

/-- The percentile + sigmoid configuration of final_policy_eval_sigmoid_only.py. -/
noncomputable def calculate_strategic_intensity_percentile :=
  calculate_strategic_intensity_with percentile_raw

end YouthPolicyEval

namespace YouthPolicyEval

/-- C1: the Administrative Intensity Calculator computes
`budget_per_youth = youth_policy_budget / youth_population` (0 when the youth
population is 0), `budget_per_capita = total_budget / total_population` (0 when
the total population is 0), `concentration_index = budget_per_youth /
budget_per_capita` (0 when the denominator is 0), and
`administrative_intensity = ln(concentration_index / fiscal_autonomy + 1)` when
the fiscal autonomy is positive, else `ln(concentration_index + 1)`; on the
spec's example inputs (budget 1,000,000 of 100,000,000; population 10,000 of
200,000; autonomy 0.3) it yields concentration index 0.2 and administrative
intensity `ln(0.2/0.3 + 1)`. -/
theorem C1_admin_intensity_formula (a : AdminInputs) :
    ((calculate_administrative_intensity a).budget_per_youth =
      if 0 < a.youth_population then a.youth_policy_budget / (a.youth_population : ℝ) else 0) ∧
    ((calculate_administrative_intensity a).budget_per_capita =
      if 0 < a.total_population then a.total_budget / (a.total_population : ℝ) else 0) ∧
    ((calculate_administrative_intensity a).concentration_index =
      if 0 < (calculate_administrative_intensity a).budget_per_capita then
        (calculate_administrative_intensity a).budget_per_youth /
          (calculate_administrative_intensity a).budget_per_capita
      else 0) ∧
    ((calculate_administrative_intensity a).administrative_intensity =
      if 0 < a.finance_autonomy then
        Real.log ((calculate_administrative_intensity a).concentration_index /
          a.finance_autonomy + 1)
      else Real.log ((calculate_administrative_intensity a).concentration_index + 1)) ∧
    (calculate_administrative_intensity exampleAdminInputs).concentration_index = 0.2 ∧
    (calculate_administrative_intensity exampleAdminInputs).administrative_intensity =
      Real.log (0.2 / 0.3 + 1) := by
  refine ⟨rfl, rfl, rfl, rfl, ?_, ?_⟩ <;>
    · simp only [calculate_administrative_intensity, exampleAdminInputs]
      norm_num

/-- C6: whenever the computed concentration index is non-negative and the
fiscal-autonomy ratio lies in (0,1], the logarithm's argument
`concentration_index / fiscal_autonomy + 1` is at least 1, so the
administrative intensity is a well-defined non-negative real number. -/
theorem C6_admin_intensity_nonneg (a : AdminInputs)
    (hci : 0 ≤ (calculate_administrative_intensity a).concentration_index)
    (hfa₀ : 0 < a.finance_autonomy) (hfa₁ : a.finance_autonomy ≤ 1) :
    1 ≤ (calculate_administrative_intensity a).concentration_index / a.finance_autonomy + 1 ∧
    0 ≤ (calculate_administrative_intensity a).administrative_intensity := by
  have harg : 1 ≤ (calculate_administrative_intensity a).concentration_index /
      a.finance_autonomy + 1 := by
    have : 0 ≤ (calculate_administrative_intensity a).concentration_index /
        a.finance_autonomy := div_nonneg hci hfa₀.le
    linarith
  refine ⟨harg, ?_⟩
  have hAI : (calculate_administrative_intensity a).administrative_intensity =
      Real.log ((calculate_administrative_intensity a).concentration_index /
        a.finance_autonomy + 1) := by
    simp only [calculate_administrative_intensity] at *
    simp only [if_pos hfa₀]
  rw [hAI]
  exact Real.log_nonneg harg

/-- C6, witness: the spec's example region satisfies the hypotheses and the
conclusion of `C6_admin_intensity_nonneg`. -/
theorem C6_admin_intensity_nonneg_witness :
    1 ≤ (calculate_administrative_intensity exampleAdminInputs).concentration_index /
      exampleAdminInputs.finance_autonomy + 1 ∧
    0 ≤ (calculate_administrative_intensity exampleAdminInputs).administrative_intensity := by
  refine C6_admin_intensity_nonneg exampleAdminInputs ?_ ?_ ?_
  · simp only [calculate_administrative_intensity, exampleAdminInputs]
    norm_num
  · norm_num [exampleAdminInputs]
  · norm_num [exampleAdminInputs]

/-- C8 fails as stated: a category whose single project carries the numeric
budget 0 (which is present and parses) still triggers the `총예산` fallback,
because the code's condition is `category_budget == 0`, not "no per-project
budget parsed"; the category contributes the aggregate 5, not the per-project
sum 0. -/
theorem C8_counterexample :
    parseBudgetValue (BudgetValue.num 0) = some 0 ∧
    stage1Budget ⟨some [⟨some (BudgetValue.num 0)⟩], some (BudgetValue.num 5)⟩ = 0 ∧
    categoryBudget ⟨some [⟨some (BudgetValue.num 0)⟩], some (BudgetValue.num 5)⟩ = 5 ∧
    categoryBudget ⟨some [⟨some (BudgetValue.num 0)⟩], some (BudgetValue.num 5)⟩ ≠
      ([Project.mk (some (BudgetValue.num 0))].map projectBudget).sum := by
  refine ⟨rfl, ?_, ?_, ?_⟩
  · simp [stage1Budget, projectBudget, parseBudgetValue]
  · simp [categoryBudget, stage1Budget, projectBudget, parseBudgetValue]
  · simp [categoryBudget, stage1Budget, projectBudget, parseBudgetValue]

/-- C8 amended: a category contributes the sum of its parsed per-project
budgets, except that the `총예산` aggregate (parsed the same way, 0 on
failure, 0 when absent) is used exactly when that stage-1 sum equals 0 —
which covers the cases where no per-project budget is present or parses, and
also the case where present budgets parse but sum to 0; a non-numeric string
is re-parsed from its digit characters and yields `none` exactly when it has
no digit, in which case it is treated as 0; every value yields a result, so
no budget value aborts the run. -/
theorem C8_budget_fallback (c : CategoryData) (s : String) (ps : List Project) :
    (categoryBudget c = if stage1Budget c = 0
        then (c.total_budget_field.map (fun v => (parseBudgetValue v).getD 0)).getD 0
        else stage1Budget c) ∧
    (stage1Budget ⟨some ps, c.total_budget_field⟩ = (ps.map projectBudget).sum) ∧
    (parseNumericString s = none ↔ s.data.filter Char.isDigit = []) ∧
    (parseBudgetValue (BudgetValue.str s) = parseNumericString s) := by
  refine ⟨?_, rfl, ?_, rfl⟩
  · unfold categoryBudget
    cases h : c.total_budget_field <;>
      by_cases h0 : stage1Budget c = 0 <;> simp [h0, h]
  · unfold parseNumericString
    cases hl : s.data.filter Char.isDigit with
    | nil => simp [hl]
    | cons a l => simp [hl]

/-- C2 fails as stated: on a run whose administrative-intensity column is
degenerate (both rows have intensity 1), the evaluation-3 normalizer writes
0 into every row, not the claimed 0.5. -/
theorem C2_counterexample :
    (calculate_comprehensive_scores_eval3 [⟨1, 2⟩, ⟨1, 3⟩]).map ScoredRow.admin_norm =
      [0, 0] ∧
    (calculate_comprehensive_scores_eval3 [⟨1, 2⟩, ⟨1, 3⟩]).map ScoredRow.admin_norm ≠
      [0.5, 0.5] := by
  have h : (calculate_comprehensive_scores_eval3 [⟨1, 2⟩, ⟨1, 3⟩]).map ScoredRow.admin_norm =
      [0, 0] := by
    simp [calculate_comprehensive_scores_eval3, calculate_comprehensive_scores,
      normalizeValue, listMin, listMax]
  refine ⟨h, ?_⟩
  rw [h]
  intro hc
  have := List.head_eq_of_cons_eq hc
  norm_num at this

/-- In a degenerate column (max = min) every normalized value is the
fallback constant. -/
theorem normalizeValue_degenerate (d v : ℝ) (column : List ℝ)
    (h : listMax column = listMin column) : normalizeValue d column v = d := by
  unfold normalizeValue
  rw [h, if_neg (lt_irrefl _)]

/-- C2 amended: in a degenerate (zero-variance) run the two implementations
disagree on the documented constant — the evaluation-3 normalizer writes 0
into every row of the degenerate column while the sigmoid-only variant
writes 0.5 — for both the administrative- and the strategic-intensity
columns. -/
theorem C2_degenerate_normalization (rows : List IntensityRow)
    (hA : listMax (rows.map IntensityRow.admin) = listMin (rows.map IntensityRow.admin))
    (hS : listMax (rows.map IntensityRow.strategic) =
      listMin (rows.map IntensityRow.strategic)) :
    (∀ r ∈ calculate_comprehensive_scores_eval3 rows,
        r.admin_norm = 0 ∧ r.strategic_norm = 0) ∧
    (∀ r ∈ calculate_comprehensive_scores_sigmoid_only rows,
        r.admin_norm = 0.5 ∧ r.strategic_norm = 0.5) := by
  constructor <;>
  · intro r hr
    simp only [calculate_comprehensive_scores_eval3,
      calculate_comprehensive_scores_sigmoid_only, calculate_comprehensive_scores,
      List.mem_map] at hr
    obtain ⟨r₀, _, rfl⟩ := hr
    exact ⟨normalizeValue_degenerate _ _ _ hA, normalizeValue_degenerate _ _ _ hS⟩

/-- C2 amended, witness: a concrete two-row degenerate run where the
evaluation-3 normalizer yields 0 everywhere and the sigmoid-only variant
yields 0.5 everywhere. -/
theorem C2_degenerate_normalization_witness :
    listMax (([⟨1, 2⟩, ⟨1, 2⟩] : List IntensityRow).map IntensityRow.admin) =
      listMin (([⟨1, 2⟩, ⟨1, 2⟩] : List IntensityRow).map IntensityRow.admin) ∧
    listMax (([⟨1, 2⟩, ⟨1, 2⟩] : List IntensityRow).map IntensityRow.strategic) =
      listMin (([⟨1, 2⟩, ⟨1, 2⟩] : List IntensityRow).map IntensityRow.strategic) ∧
    (∀ r ∈ calculate_comprehensive_scores_eval3 [⟨1, 2⟩, ⟨1, 2⟩],
        r.admin_norm = 0 ∧ r.strategic_norm = 0) ∧
    (∀ r ∈ calculate_comprehensive_scores_sigmoid_only [⟨1, 2⟩, ⟨1, 2⟩],
        r.admin_norm = 0.5 ∧ r.strategic_norm = 0.5) := by
  have hA : listMax (([⟨1, 2⟩, ⟨1, 2⟩] : List IntensityRow).map IntensityRow.admin) =
      listMin (([⟨1, 2⟩, ⟨1, 2⟩] : List IntensityRow).map IntensityRow.admin) := by
    simp [listMax, listMin]
  have hS : listMax (([⟨1, 2⟩, ⟨1, 2⟩] : List IntensityRow).map IntensityRow.strategic) =
      listMin (([⟨1, 2⟩, ⟨1, 2⟩] : List IntensityRow).map IntensityRow.strategic) := by
    simp [listMax, listMin]
  exact ⟨hA, hS, (C2_degenerate_normalization _ hA hS).1,
    (C2_degenerate_normalization _ hA hS).2⟩

/-- The non-zero counts account for the whole total. -/
theorem sum_active_eq_total (counts : Fin 5 → ℕ) :
    ∑ i ∈ activeSet counts, (counts i : ℝ) = (total_policies counts : ℝ) := by
  unfold activeSet total_policies
  rw [Finset.sum_filter_of_ne]
  · exact (Nat.cast_sum _ _).symm
  · intro x _ hx
    exact Nat.pos_of_ne_zero (by exact_mod_cast hx)

/-- A positive active-category count forces a positive total. -/
theorem total_pos_of_active (counts : Fin 5 → ℕ) (h : 0 < active_categories counts) :
    0 < total_policies counts := by
  obtain ⟨i, hi⟩ := Finset.card_pos.mp h
  have hci : 0 < counts i := (Finset.mem_filter.mp hi).2
  exact lt_of_lt_of_le hci
    (Finset.single_le_sum (fun j _ => Nat.zero_le _) (Finset.mem_univ i))

/-- The entropy accumulation is non-negative: each summand `-(p·log2 p)` with
`p ∈ (0,1]` is non-negative. -/
theorem entropy_nonneg (counts : Fin 5 → ℕ) : 0 ≤ entropy counts := by
  unfold entropy
  split
  · apply Finset.sum_nonneg
    intro i hi
    rename_i hT
    have hci : 0 < counts i := (Finset.mem_filter.mp hi).2
    have hT' : (0 : ℝ) < (total_policies counts : ℝ) := by exact_mod_cast hT
    have hc' : (0 : ℝ) < (counts i : ℝ) := by exact_mod_cast hci
    have hp₀ : (0 : ℝ) < (counts i : ℝ) / (total_policies counts : ℝ) := by positivity
    have hp₁ : (counts i : ℝ) / (total_policies counts : ℝ) ≤ 1 := by
      rw [div_le_one hT']
      exact_mod_cast Finset.single_le_sum (f := fun j => counts j)
        (fun j _ => Nat.zero_le _) (Finset.mem_univ i)
    have hlb := Real.logb_nonpos (b := 2) (by norm_num) hp₀.le hp₁
    have := mul_nonpos_of_nonneg_of_nonpos hp₀.le hlb
    linarith
  · exact le_refl 0

/-- Jensen's inequality for the entropy: the base-2 entropy of the normalized
count distribution is at most `log2` of the number of active categories. -/
theorem entropy_le_logb_active (counts : Fin 5 → ℕ) (hT : 0 < total_policies counts) :
    entropy counts ≤ Real.logb 2 (active_categories counts : ℝ) := by
  have hT' : (0 : ℝ) < (total_policies counts : ℝ) := by exact_mod_cast hT
  have hlog2 : (0 : ℝ) < Real.log 2 := Real.log_pos (by norm_num)
  set T : ℝ := (total_policies counts : ℝ) with hTdef
  have hw1 : ∑ i ∈ activeSet counts, (counts i : ℝ) / T = 1 := by
    rw [← Finset.sum_div, sum_active_eq_total, div_self hT'.ne']
  have hmem : ∀ i ∈ activeSet counts, T / (counts i : ℝ) ∈ Set.Ioi (0 : ℝ) := by
    intro i hi
    have hc' : (0 : ℝ) < (counts i : ℝ) := by
      exact_mod_cast (Finset.mem_filter.mp hi).2
    exact Set.mem_Ioi.mpr (by positivity)
  have hkey := (strictConcaveOn_log_Ioi.concaveOn).le_map_sum
    (t := activeSet counts) (w := fun i => (counts i : ℝ) / T)
    (p := fun i => T / (counts i : ℝ)) (fun i _ => by positivity) hw1 hmem
  simp only [smul_eq_mul] at hkey
  have hone : ∀ i ∈ activeSet counts, ((counts i : ℝ) / T) * (T / (counts i : ℝ)) = 1 := by
    intro i hi
    have hc' : ((counts i : ℝ)) ≠ 0 := by
      have : 0 < counts i := (Finset.mem_filter.mp hi).2
      exact_mod_cast this.ne'
    field_simp
  have hsum : ∑ i ∈ activeSet counts, ((counts i : ℝ) / T) * (T / (counts i : ℝ))
      = (active_categories counts : ℝ) := by
    rw [Finset.sum_congr rfl hone, Finset.sum_const, nsmul_eq_mul, mul_one]
    rfl
  rw [hsum] at hkey
  have hentropy : entropy counts = (∑ i ∈ activeSet counts,
      ((counts i : ℝ) / T) * Real.log (T / (counts i : ℝ))) / Real.log 2 := by
    unfold entropy
    rw [if_pos hT, Finset.sum_div]
    apply Finset.sum_congr rfl
    intro i hi
    have hc' : (0 : ℝ) < (counts i : ℝ) := by
      exact_mod_cast (Finset.mem_filter.mp hi).2
    simp only [Real.logb]
    rw [Real.log_div hc'.ne' hT'.ne', Real.log_div hT'.ne' hc'.ne']
    field_simp
    ring
  rw [hentropy]
  simp only [Real.logb]
  exact (div_le_div_right hlog2).mpr hkey

/-- C5: the normalized entropy score equals the base-2 Shannon entropy of the
normalized project-count distribution over the non-zero categories divided by
`log2(active_category_count)`; it lies in `[0,1]`; it is 0 whenever fewer than
two categories are active; and the example region with counts (4,0,4,0,0)
scores exactly 1. -/
theorem C5_entropy_score (counts : Fin 5 → ℕ) :
    (0 ≤ entropy_score counts ∧ entropy_score counts ≤ 1) ∧
    (active_categories counts < 2 → entropy_score counts = 0) ∧
    (1 < active_categories counts →
      entropy_score counts =
        entropy counts / Real.logb 2 (active_categories counts : ℝ)) ∧
    entropy_score ![4, 0, 4, 0, 0] = 1 := by
  have hlogb_active : ∀ cs : Fin 5 → ℕ, 1 < active_categories cs →
      0 < Real.logb 2 (active_categories cs : ℝ) := by
    intro cs h1
    refine Real.logb_pos (by norm_num) ?_
    exact_mod_cast h1
  refine ⟨?_, ?_, ?_, ?_⟩
  · unfold entropy_score
    by_cases h1 : 1 < active_categories counts
    · rw [if_pos h1, if_pos (hlogb_active counts h1)]
      refine ⟨div_nonneg (entropy_nonneg counts) (hlogb_active counts h1).le, ?_⟩
      rw [div_le_one (hlogb_active counts h1)]
      exact entropy_le_logb_active counts
        (total_pos_of_active counts (Nat.lt_of_lt_of_le Nat.zero_lt_one h1.le))
    · rw [if_neg h1]
      exact ⟨le_refl 0, zero_le_one⟩
  · intro h
    unfold entropy_score
    rw [if_neg (by omega)]
  · intro h1
    unfold entropy_score
    rw [if_pos h1, if_pos (hlogb_active counts h1)]
  · have hAs : activeSet ![4, 0, 4, 0, 0] = {0, 2} := by decide
    have htot : total_policies ![4, 0, 4, 0, 0] = 8 := by decide
    have hact : active_categories ![4, 0, 4, 0, 0] = 2 := by decide
    have hlog2 : Real.logb 2 (2 : ℝ) = 1 := Real.logb_self_eq_one (by norm_num)
    have hent : entropy ![4, 0, 4, 0, 0] = 1 := by
      unfold entropy
      rw [if_pos (by decide : 0 < total_policies ![4, 0, 4, 0, 0]), hAs, htot]
      rw [Finset.sum_insert (by decide), Finset.sum_singleton]
      have h0 : (![4, 0, 4, 0, 0] : Fin 5 → ℕ) 0 = 4 := rfl
      have h2 : (![4, 0, 4, 0, 0] : Fin 5 → ℕ) 2 = 4 := rfl
      rw [h0, h2]
      push_cast
      rw [show ((4 : ℝ) / 8) = 2⁻¹ by norm_num, Real.logb_inv, hlog2]
      norm_num
    unfold entropy_score
    rw [hact, if_pos (by norm_num)]
    push_cast
    rw [hlog2, if_pos (by norm_num), hent, div_one]

/-- C5, witness for the inner implications: a region with a single active
category has entropy score 0, and the bounds hold there. -/
theorem C5_entropy_score_witness :
    (0 ≤ entropy_score ![3, 0, 0, 0, 0] ∧ entropy_score ![3, 0, 0, 0, 0] ≤ 1) ∧
    active_categories ![3, 0, 0, 0, 0] < 2 ∧
    entropy_score ![3, 0, 0, 0, 0] = 0 := by
  have h : active_categories ![3, 0, 0, 0, 0] < 2 := by decide
  exact ⟨(C5_entropy_score ![3, 0, 0, 0, 0]).1, h,
    (C5_entropy_score ![3, 0, 0, 0, 0]).2.1 h⟩

/-- C4: after the ranking step, the ranks assigned over the N evaluated rows
are exactly the list 1, 2, ..., N (a permutation with no gaps or duplicates),
the ranked rows are a permutation of the input rows, and they are ordered by
composite score descending. -/
theorem C4_overall_rank_permutation (rows : List RankInputRow) :
    (add_overall_ranks rows).map Prod.snd = List.range' 1 rows.length ∧
    ((add_overall_ranks rows).map Prod.fst).Perm rows ∧
    List.Sorted byCompositeDesc ((add_overall_ranks rows).map Prod.fst) := by
  have hperm := List.perm_insertionSort byCompositeDesc rows
  have hlen : (rows.insertionSort byCompositeDesc).length = rows.length :=
    hperm.length_eq
  unfold add_overall_ranks
  refine ⟨?_, ?_, ?_⟩
  · rw [List.map_snd_zip _ _ (by rw [List.length_range'])]
    rw [hlen]
  · rw [List.map_fst_zip _ _ (by rw [List.length_range'])]
    exact hperm
  · rw [List.map_fst_zip _ _ (by rw [List.length_range'])]
    exact List.sorted_insertionSort byCompositeDesc rows

/-- C3: the linker's weight pair (0.7, 0.3) sums to 1; the linked score of a
municipal row is `own_composite * 0.7 + parent_metro_composite * 0.3`, so own
composite 0.6 with parent composite 0.8 yields 0.66; and the municipal rows
are sorted by linked score descending and numbered 1..N. -/
theorem C3_linked_score_and_rank (b m : ℝ) (rows : List BasicLinkRow) :
    basic_weight + metro_weight = 1 ∧
    linked_score b m = b * 0.7 + m * 0.3 ∧
    linked_score 0.6 0.8 = 0.66 ∧
    (link_rank rows).map Prod.snd = List.range' 1 rows.length ∧
    List.Sorted byLinkedDesc ((link_rank rows).map Prod.fst) := by
  have hperm := List.perm_insertionSort byLinkedDesc rows
  have hlen : (rows.insertionSort byLinkedDesc).length = rows.length := hperm.length_eq
  refine ⟨by norm_num [basic_weight, metro_weight], rfl,
    by norm_num [linked_score, basic_weight, metro_weight], ?_, ?_⟩
  · unfold link_rank
    rw [List.map_snd_zip _ _ (by rw [List.length_range'])]
    rw [hlen]
  · unfold link_rank
    rw [List.map_fst_zip _ _ (by rw [List.length_range'])]
    exact List.sorted_insertionSort byLinkedDesc rows

/-- C9: the tier ranks merged back by `add_rankings` depend only on the
region name, so any two output rows sharing a name (the two rows of a
dual-role region) carry identical (metro-rank, basic-rank) pairs; in the
concrete three-row run, the Metropolitan-tagged Jeju row carries basic-tier
rank 2 computed for its Municipal sibling (not the 0 default), and vice
versa. -/
theorem C9_tier_rank_merge_by_name (rows : List RankInputRow) :
    (∀ p ∈ add_tier_ranks rows, ∀ q ∈ add_tier_ranks rows,
        p.1.name = q.1.name → p.2 = q.2) ∧
    add_tier_ranks exampleDualRows =
      [(⟨"제주특별자치도", RegionType.metro, 1⟩, 1, 2),
       (⟨"제주특별자치도", RegionType.basic, 1⟩, 1, 2),
       (⟨"부산기초", RegionType.basic, 2⟩, 0, 1)] := by
  constructor
  · intro p hp q hq hname
    simp only [add_tier_ranks, List.mem_map] at hp hq
    obtain ⟨r, _, rfl⟩ := hp
    obtain ⟨r', _, rfl⟩ := hq
    simp only at hname ⊢
    rw [hname]
  · have hr1 : List.range' 1 1 = [1] := rfl
    have hr2 : List.range' 1 2 = [1, 2] := rfl
    have hd1 : decide ("부산기초" = "제주특별자치도") = false := by decide
    have hd2 : decide ("제주특별자치도" = "부산기초") = false := by decide
    norm_num [add_tier_ranks, tier_ranking, exampleDualRows, mergedTierRank,
      List.insertionSort, List.orderedInsert, byCompositeDesc, List.filter,
      hr1, hr2, hd1, hd2]

/-- Every row the driver's loop body produces for a region carries that
region's name. -/
theorem regionRows_name {A S : Type} (ac : String → A)
    (sc : String → Option PeerOverride → S) (im : String → Bool) (m : String) :
    ∀ r ∈ regionRows ac sc im m, r.name = m := by
  intro r hr
  unfold regionRows at hr
  split at hr <;> simp only [List.mem_cons, List.mem_singleton,
    List.not_mem_nil, or_false] at hr
  · rcases hr with rfl | rfl <;> rfl
  · rcases hr with rfl
    rfl

/-- A region name absent from the key list contributes no output row. -/
theorem eval_filter_of_not_mem {A S : Type} (ac : String → A)
    (sc : String → Option PeerOverride → S) (im : String → Bool)
    (regions : List String) (n : String) (h : n ∉ regions) :
    (evaluate_all_regions ac sc im regions).filter (fun r => decide (r.name = n)) = [] := by
  induction regions with
  | nil => rfl
  | cons m rest ih =>
    rw [evaluate_all_regions, List.flatMap_cons, List.filter_append]
    have hmn : m ≠ n := fun hmn => h (hmn ▸ List.mem_cons_self m rest)
    have h₁ : (regionRows ac sc im m).filter (fun r => decide (r.name = n)) = [] := by
      rw [List.filter_eq_nil_iff]
      intro r hr
      have := regionRows_name ac sc im m r hr
      simp [this, hmn]
    rw [h₁, List.nil_append]
    exact ih fun hmem => h (List.mem_cons_of_mem m hmem)

/-- C7: a dual-role region appearing once in the key list produces exactly
two output rows — first a Metropolitan-tagged row, then a Municipal-tagged
row — both holding the single administrative-intensity result `adminCalc n`
(computed once, hence equal across the two rows), while the strategic
intensities are the two independent computations with the `metro` and
`basic` peer-group overrides. -/
theorem C7_dual_role_rows {A S : Type} (adminCalc : String → A)
    (strategicCalc : String → Option PeerOverride → S) (isMetro : String → Bool)
    (regions : List String) (n : String)
    (hn : n ∈ special_dual_role_regions) (h1 : regions.count n = 1) :
    (evaluate_all_regions adminCalc strategicCalc isMetro regions).filter
        (fun r => decide (r.name = n)) =
      [⟨n, RegionType.metro, adminCalc n, strategicCalc n (some PeerOverride.metro)⟩,
       ⟨n, RegionType.basic, adminCalc n, strategicCalc n (some PeerOverride.basic)⟩] := by
  induction regions with
  | nil => simp at h1
  | cons m rest ih =>
    rw [evaluate_all_regions, List.flatMap_cons, List.filter_append]
    rw [show rest.flatMap (regionRows adminCalc strategicCalc isMetro) =
      evaluate_all_regions adminCalc strategicCalc isMetro rest from rfl]
    by_cases hmn : m = n
    · subst hmn
      have hrest : rest.count m = 0 := by
        have := List.count_cons_self m rest
        omega
      have hnotmem : m ∉ rest := List.count_eq_zero.mp hrest
      rw [eval_filter_of_not_mem adminCalc strategicCalc isMetro rest m hnotmem,
        List.append_nil]
      unfold regionRows
      rw [if_pos hn]
      simp [List.filter]
    · have hcount : rest.count n = 1 := by
        rwa [List.count_cons_of_ne (fun h => hmn h.symm)] at h1
      have h₁ : (regionRows adminCalc strategicCalc isMetro m).filter
          (fun r => decide (r.name = n)) = [] := by
        rw [List.filter_eq_nil_iff]
        intro r hr
        have := regionRows_name adminCalc strategicCalc isMetro m r hr
        simp [this, hmn]
      rw [h₁, List.nil_append]
      exact ih hcount

/-- C7, witness: a concrete run over the single dual-role key Jeju with
distinguishable calculator outputs yields exactly the Metropolitan row and
the Municipal row, sharing the once-computed administrative result 0 and
carrying the two override-specific strategic results 1 and 2. -/
theorem C7_dual_role_rows_witness :
    (evaluate_all_regions (fun _ => (0 : ℕ))
        (fun _ o => match o with
          | some PeerOverride.metro => 1
          | some PeerOverride.basic => 2
          | none => (0 : ℕ))
        (fun _ => true) ["제주특별자치도"]).filter
        (fun r => decide (r.name = "제주특별자치도")) =
      [⟨"제주특별자치도", RegionType.metro, 0, 1⟩,
       ⟨"제주특별자치도", RegionType.basic, 0, 2⟩] :=
  C7_dual_role_rows _ _ _ _ _ (by decide) (by decide)

/-- The Gaussian density `exp(-t²/2)` is integrable over ℝ. -/
theorem gauss_integrable :
    MeasureTheory.Integrable (fun t : ℝ => Real.exp (-t ^ 2 / 2)) := by
  have heq : (fun t : ℝ => Real.exp (-t ^ 2 / 2)) =
      fun t : ℝ => Real.exp (-(1 / 2 : ℝ) * t ^ 2) := by
    funext t
    congr 1
    ring
  rw [heq]
  exact integrable_exp_neg_mul_sq (by norm_num)

/-- The total Gaussian integral: `∫ exp(-t²/2) = √(2π)`. -/
theorem gauss_total : (∫ t : ℝ, Real.exp (-t ^ 2 / 2)) = Real.sqrt (2 * Real.pi) := by
  have heq : (fun t : ℝ => Real.exp (-t ^ 2 / 2)) =
      fun t : ℝ => Real.exp (-(1 / 2 : ℝ) * t ^ 2) := by
    funext t
    congr 1
    ring
  rw [heq, integral_gaussian]
  congr 1
  rw [div_div_eq_mul_div, div_one]  -- π / (1/2) = 2π? adjust below if needed
  ring

/-- The normal CDF is non-negative. -/
theorem normCdf_nonneg (x : ℝ) : 0 ≤ normCdf x := by
  unfold normCdf
  apply div_nonneg _ (Real.sqrt_nonneg _)
  exact MeasureTheory.setIntegral_nonneg measurableSet_Iio fun t _ => (Real.exp_pos _).le

/-- The normal CDF is at most 1. -/
theorem normCdf_le_one (x : ℝ) : normCdf x ≤ 1 := by
  unfold normCdf
  have hpos : 0 < Real.sqrt (2 * Real.pi) :=
    Real.sqrt_pos.mpr (by positivity)
  rw [div_le_one hpos]
  calc (∫ t in Set.Iio x, Real.exp (-t ^ 2 / 2))
      ≤ ∫ t : ℝ, Real.exp (-t ^ 2 / 2) :=
        MeasureTheory.setIntegral_le_integral gauss_integrable
          (Filter.Eventually.of_forall fun t => (Real.exp_pos _).le)
    _ = Real.sqrt (2 * Real.pi) := gauss_total

/-- The sigmoid squashing is strictly positive. -/
theorem sigmoid_scaled_pos (x : ℝ) : 0 < sigmoid_scaled x := by
  unfold sigmoid_scaled SIGMOID_K
  positivity

/-- The sigmoid squashing is monotone. -/
theorem sigmoid_scaled_le (x y : ℝ) (h : x ≤ y) :
    sigmoid_scaled x ≤ sigmoid_scaled y := by
  unfold sigmoid_scaled SIGMOID_K
  have h1 : (0 : ℝ) < 1 + Real.exp (-(5 : ℝ) * (y - 0.5)) := by positivity
  apply one_div_le_one_div_of_le h1
  have hexp : Real.exp (-(5 : ℝ) * (y - 0.5)) ≤ Real.exp (-(5 : ℝ) * (x - 0.5)) :=
    Real.exp_le_exp.mpr (by nlinarith)
  linarith

/-- The percentile standing lies in [0, 1]. -/
theorem percentile_raw_mem (d : List ℕ) (v : ℕ) :
    0 ≤ percentile_raw d v ∧ percentile_raw d v ≤ 1 := by
  unfold percentile_raw
  split
  · rename_i h
    have hlen : (0 : ℝ) < (d.length : ℝ) := by exact_mod_cast h
    refine ⟨by positivity, ?_⟩
    rw [div_le_one hlen]
    exact_mod_cast List.length_filter_le _ d
  · exact ⟨le_refl 0, zero_le_one⟩

/-- The z-score standing lies in [0, 1]. -/
theorem z_score_raw_mem (d : List ℕ) (v : ℕ) :
    0 ≤ z_score_raw d v ∧ z_score_raw d v ≤ 1 := by
  unfold z_score_raw
  split
  · exact ⟨normCdf_nonneg _, normCdf_le_one _⟩
  · split
    · norm_num
    · norm_num

/-- The normalized entropy score is non-negative. -/
theorem entropy_score_nonneg (counts : Fin 5 → ℕ) : 0 ≤ entropy_score counts := by
  unfold entropy_score
  split
  · split
    · rename_i h2
      exact div_nonneg (entropy_nonneg counts) (le_of_lt h2)
    · exact le_refl 0
  · exact le_refl 0

/-- `sigmoid_scaled 0` is the lower endpoint `1/(1+e^2.5)`. -/
theorem sigmoid_scaled_zero : sigmoid_scaled 0 = 1 / (1 + Real.exp (2.5 : ℝ)) := by
  unfold sigmoid_scaled SIGMOID_K
  norm_num

/-- `sigmoid_scaled 1` is the upper endpoint `1/(1+e^(-2.5))`. -/
theorem sigmoid_scaled_one : sigmoid_scaled 1 = 1 / (1 + Real.exp (-2.5 : ℝ)) := by
  unfold sigmoid_scaled SIGMOID_K
  norm_num

/-- Common bounds for the strategic scoring loop: with any standing method
valued in [0, 1], every per-category score lies in the closed sigmoid range,
the category total is at least five times the lower endpoint, and the
strategic intensity is strictly positive. -/
theorem strategic_bounds_with (raw : List ℕ → ℕ → ℝ)
    (hraw : ∀ d v, 0 ≤ raw d v ∧ raw d v ≤ 1) (im : String → Bool)
    (cache : List CacheRow) (name : String) (ov : Option PeerOverride)
    (current : CacheRow)
    (hfound : cache.find? (fun row => decide (row.region_name = name)) = some current) :
    (∀ i, 1 / (1 + Real.exp (2.5 : ℝ)) ≤
        (calculate_strategic_intensity_with raw im cache name ov).category_scores i ∧
      (calculate_strategic_intensity_with raw im cache name ov).category_scores i ≤
        1 / (1 + Real.exp (-2.5 : ℝ))) ∧
    5 / (1 + Real.exp (2.5 : ℝ)) ≤
      (calculate_strategic_intensity_with raw im cache name ov).category_total_score ∧
    0 < (calculate_strategic_intensity_with raw im cache name ov).strategic_intensity := by
  have hscores : ∀ i, 1 / (1 + Real.exp (2.5 : ℝ)) ≤
      (calculate_strategic_intensity_with raw im cache name ov).category_scores i ∧
      (calculate_strategic_intensity_with raw im cache name ov).category_scores i ≤
        1 / (1 + Real.exp (-2.5 : ℝ)) := by
    intro i
    simp only [calculate_strategic_intensity_with, hfound]
    constructor
    · rw [← sigmoid_scaled_zero]
      exact sigmoid_scaled_le _ _ (hraw _ _).1
    · rw [← sigmoid_scaled_one]
      exact sigmoid_scaled_le _ _ (hraw _ _).2
  have htotal : 5 / (1 + Real.exp (2.5 : ℝ)) ≤
      (calculate_strategic_intensity_with raw im cache name ov).category_total_score := by
    have hsum : (calculate_strategic_intensity_with raw im cache name ov).category_total_score
        = ∑ i, (calculate_strategic_intensity_with raw im cache name ov).category_scores i := by
      simp only [calculate_strategic_intensity_with, hfound]
    rw [hsum]
    calc 5 / (1 + Real.exp (2.5 : ℝ))
        = ∑ _i : Fin 5, 1 / (1 + Real.exp (2.5 : ℝ)) := by
          rw [Finset.sum_const, Finset.card_univ, Fintype.card_fin, nsmul_eq_mul]
          push_cast
          ring
      _ ≤ ∑ i, (calculate_strategic_intensity_with raw im cache name ov).category_scores i :=
          Finset.sum_le_sum fun i _ => (hscores i).1
  refine ⟨hscores, htotal, ?_⟩
  have hintensity : (calculate_strategic_intensity_with raw im cache name ov).strategic_intensity
      = (calculate_strategic_intensity_with raw im cache name ov).category_total_score +
        entropy_score current.counts := by
    simp only [calculate_strategic_intensity_with, hfound]
  rw [hintensity]
  have hpos : (0 : ℝ) < 5 / (1 + Real.exp (2.5 : ℝ)) := by positivity
  have := entropy_score_nonneg current.counts
  linarith

/-- C10 fails as stated: in the percentile configuration, a region whose
count is the maximum of its peer group gets standing exactly 1, so its
per-category score equals the upper endpoint `1/(1+e^(-2.5))` instead of
lying strictly below it; concretely, a single-region cache gives score
exactly `1/(1+e^(-2.5))` in every category. -/
theorem C10_counterexample :
    (calculate_strategic_intensity_percentile (fun _ => true)
        [⟨"A", true, fun _ => 0⟩] "A" none).category_scores 0 =
      1 / (1 + Real.exp (-2.5 : ℝ)) ∧
    ¬ ((calculate_strategic_intensity_percentile (fun _ => true)
        [⟨"A", true, fun _ => 0⟩] "A" none).category_scores 0 <
      1 / (1 + Real.exp (-2.5 : ℝ))) := by
  have hfind : ([⟨"A", true, fun _ => 0⟩] : List CacheRow).find?
      (fun row => decide (row.region_name = "A")) = some ⟨"A", true, fun _ => 0⟩ := rfl
  have hscore : (calculate_strategic_intensity_percentile (fun _ => true)
      [⟨"A", true, fun _ => 0⟩] "A" none).category_scores 0 =
        1 / (1 + Real.exp (-2.5 : ℝ)) := by
    simp only [calculate_strategic_intensity_percentile,
      calculate_strategic_intensity_with, hfind]
    rw [show percentile_raw ((([⟨"A", true, fun _ => 0⟩] : List CacheRow).filter
        fun row => row.is_metro == resolve_is_metro (fun _ => true) "A" none).map
          fun row => row.counts 0) ((⟨"A", true, fun _ => 0⟩ : CacheRow).counts 0) = 1 by
      norm_num [percentile_raw, resolve_is_metro, List.filter]]
    exact sigmoid_scaled_one
  exact ⟨hscore, by rw [hscore]; exact lt_irrefl _⟩

/-- C10 amended: for every region present in the peer-statistics cache, each
per-category score lies in the closed interval `[1/(1+e^2.5), 1/(1+e^(-2.5))]`
(the endpoints are attained, e.g. at percentile standing 1, so the bounds are
not strict), the category total is at least `5/(1+e^2.5)`, and the strategic
intensity is strictly positive — never 0 — even with zero projects in all
five categories; this holds for both the z-score and the percentile
configuration. -/
theorem C10_sigmoid_score_bounds (im : String → Bool) (cache : List CacheRow)
    (name : String) (ov : Option PeerOverride) (current : CacheRow)
    (hfound : cache.find? (fun row => decide (row.region_name = name)) = some current) :
    (∀ i, 1 / (1 + Real.exp (2.5 : ℝ)) ≤
        (calculate_strategic_intensity_zscore im cache name ov).category_scores i ∧
      (calculate_strategic_intensity_zscore im cache name ov).category_scores i ≤
        1 / (1 + Real.exp (-2.5 : ℝ))) ∧
    5 / (1 + Real.exp (2.5 : ℝ)) ≤
      (calculate_strategic_intensity_zscore im cache name ov).category_total_score ∧
    0 < (calculate_strategic_intensity_zscore im cache name ov).strategic_intensity ∧
    (∀ i, 1 / (1 + Real.exp (2.5 : ℝ)) ≤
        (calculate_strategic_intensity_percentile im cache name ov).category_scores i ∧
      (calculate_strategic_intensity_percentile im cache name ov).category_scores i ≤
        1 / (1 + Real.exp (-2.5 : ℝ))) ∧
    5 / (1 + Real.exp (2.5 : ℝ)) ≤
      (calculate_strategic_intensity_percentile im cache name ov).category_total_score ∧
    0 < (calculate_strategic_intensity_percentile im cache name ov).strategic_intensity := by
  obtain ⟨hz1, hz2, hz3⟩ :=
    strategic_bounds_with z_score_raw z_score_raw_mem im cache name ov current hfound
  obtain ⟨hp1, hp2, hp3⟩ :=
    strategic_bounds_with percentile_raw percentile_raw_mem im cache name ov current hfound
  exact ⟨hz1, hz2, hz3, hp1, hp2, hp3⟩

/-- C10 amended, witness: the single-region cache satisfies the lookup
hypothesis, and both configurations yield strictly positive strategic
intensity there with all scores inside the closed sigmoid range. -/
theorem C10_sigmoid_score_bounds_witness :
    (([⟨"A", true, fun _ => 0⟩] : List CacheRow).find?
        (fun row => decide (row.region_name = "A")) =
      some ⟨"A", true, fun _ => 0⟩) ∧
    (0 < (calculate_strategic_intensity_zscore (fun _ => true)
        [⟨"A", true, fun _ => 0⟩] "A" none).strategic_intensity ∧
    0 < (calculate_strategic_intensity_percentile (fun _ => true)
        [⟨"A", true, fun _ => 0⟩] "A" none).strategic_intensity) :=
  ⟨rfl,
    (C10_sigmoid_score_bounds (fun _ => true) [⟨"A", true, fun _ => 0⟩] "A" none
      ⟨"A", true, fun _ => 0⟩ rfl).2.2.1,
    (C10_sigmoid_score_bounds (fun _ => true) [⟨"A", true, fun _ => 0⟩] "A" none
      ⟨"A", true, fun _ => 0⟩ rfl).2.2.2.2.2⟩

end YouthPolicyEval
